import Mathlib

/-!
Verification of the generation lifecycle and versioning state machine of the
`test-assistant-be` service.

The definitions below are a shallow embedding of the JavaScript source:

* `src/src/models/Generation.js`, `src/src/models/Project.js` — the data model
  (mongoose schemas).  Numeric telemetry fields that no property mentions
  (`cost`, `generationTimeSeconds`, the mongoose `timestamps`) are omitted;
  `result.markdown` is flattened to `result`.  Dates are modelled as natural
  numbers supplied by the caller (`now`).
* `src/src/utils/projectUtils.js` — `extractProjectKey`, `findOrCreateProject`.
* `src/unnamed/part_002` (`OpenAIService`) — the retry loop of
  `generateTestCases`, modelled over an explicit list of API-call outcomes.
* `src/src/routes/generations.js` — the five operations the claims are about:
  POST `/testcases`, GET `/:id/view`, PUT `/:id/content`, PUT `/:id/publish`,
  DELETE `/:id`.  Each route is a pure function from a store (the mongoose
  collections) and the request data to a response and an updated store.
-/

namespace TestAssistant

/-! ## Data model (src/src/models/Generation.js, src/src/models/Project.js) -/

/-- An entry of the `versions` array (`versionSchema`, Generation.js lines 30-36).
The schema declares `versionNumber : String` while the route pushes the Number
`currentVersionNumber` and compares entries with `===`; the model uses `Nat`
uniformly for version numbers, which agrees with the route's arithmetic on every
store the model can build.  `releaseDate`/`notes` carry no claim content; the
route writes `updatedBy`/`updatedAt`, kept here. -/
structure Version where
  versionNumber : Nat
  content : String
  updatedBy : String
  updatedAt : Nat
  deriving DecidableEq, Repr

/-- `markdownSchema` (Generation.js lines 9-12). -/
structure Markdown where
  filename : String
  content : String
  deriving DecidableEq, Repr

/-- A Generation document (`generationSchema`, Generation.js lines 42-73).
`status` is an optional string: the schema gives it no default and no
`required`, so a freshly constructed document simply has no status value. -/
structure Generation where
  id : Nat
  issueKey : String
  email : String
  project : Option Nat
  mode : Option String
  status : Option String
  startedAt : Option Nat
  completedAt : Option Nat
  error : Option String
  published : Bool
  publishedAt : Option Nat
  publishedBy : Option String
  result : Option Markdown
  versions : List Version
  currentVersion : Nat
  deriving DecidableEq, Repr

/-- The `enum: ['completed', 'failed']` path validation on `status`
(Generation.js line 51): an absent value passes, a present string must be one
of the two enum members — `"pending"` is not admitted by the schema. -/
def statusEnumOk : Option String → Bool
  | none => true
  | some v => v == "completed" || v == "failed"

/-- A Project document (`projectSchema`, Project.js lines 3-24). -/
structure Project where
  id : Nat
  projectKey : String
  createdBy : Option String
  firstGeneratedAt : Option Nat
  lastGeneratedAt : Option Nat
  totalGenerations : Nat
  deriving DecidableEq, Repr

/-- The two mongoose collections plus fresh-id counters. -/
structure Store where
  gens : List Generation
  projects : List Project
  nextGenId : Nat
  nextProjId : Nat
  deriving DecidableEq, Repr

/-- The empty database. -/
def Store.init : Store := ⟨[], [], 0, 0⟩

/-- `Generation.findById(id)`. -/
def findGen (s : Store) (id : Nat) : Option Generation :=
  s.gens.find? (fun g => g.id == id)

/-- `Project.findById(id)` — called with `undefined` it resolves to null,
modelled by the `none` branch. -/
def findProj (s : Store) (id : Option Nat) : Option Project :=
  match id with
  | none => none
  | some i => s.projects.find? (fun p => p.id == i)

/-- Save a mutated generation document back into the collection. -/
def updateGen (s : Store) (id : Nat) (f : Generation → Generation) : Store :=
  { s with gens := s.gens.map (fun g => if g.id == id then f g else g) }

/-! ## Project utilities (src/src/utils/projectUtils.js) -/

/-- JavaScript `String.prototype.startsWith`, expressed over the character
list so that it evaluates inside the kernel. -/
def jsStartsWith (s p : String) : Bool := p.data.isPrefixOf s.data

/-- Whitespace as `String.prototype.trim` strips it (the characters that occur
in this service's data). -/
def isJsWhitespace (c : Char) : Bool := c = ' ' || c = '\t' || c = '\n' || c = '\r'

/-- JavaScript `String.prototype.trim`, expressed over the character list so
that it evaluates inside the kernel. -/
def jsTrim (s : String) : String :=
  String.mk (((s.data.dropWhile isJsWhitespace).reverse.dropWhile isJsWhitespace).reverse)

def isAsciiAlpha (c : Char) : Bool :=
  ('A' ≤ c && c ≤ 'Z') || ('a' ≤ c && c ≤ 'z')

def isAsciiAlnum (c : Char) : Bool :=
  isAsciiAlpha c || ('0' ≤ c && c ≤ '9')

/-- Longest prefix of alphanumeric characters together with the rest. -/
def takeAlnum : List Char → List Char × List Char
  | [] => ([], [])
  | c :: cs =>
    if isAsciiAlnum c then
      let r := takeAlnum cs
      (c :: r.1, r.2)
    else ([], c :: cs)

/-- `extractProjectKey` (projectUtils.js lines 1-10): match the issue key
against `^([A-Z][A-Z0-9]+)-` case-insensitively and uppercase the captured
group.  The greedy `[A-Z0-9]+` run can only be followed by `-` via the
character right after the maximal alphanumeric run. -/
def extractProjectKey (issueKey : String) : Option String :=
  match issueKey.data with
  | [] => none
  | c :: cs =>
    if isAsciiAlpha c then
      match takeAlnum cs with
      | ([], _) => none
      | (xs, rest) =>
        match rest with
        | '-' :: _ => some (String.mk ((c :: xs).map Char.toUpper))
        | _ => none
    else none

/-- Uppercase every character, as `String.prototype.toUpperCase` does for the
ASCII project keys this service handles. -/
def toUpperStr (s : String) : String := String.mk (s.data.map Char.toUpper)

/-- `findOrCreateProject` (projectUtils.js lines 12-42): normalize the key,
find the project, create it with zeroed stats when absent, otherwise bump
`lastGeneratedAt`; always persist. -/
def findOrCreateProject (s : Store) (projectKey : String) (userEmail : String)
    (now : Nat) : Project × Store :=
  let normalizedKey := toUpperStr (jsTrim projectKey)
  match s.projects.find? (fun p => p.projectKey == normalizedKey) with
  | none =>
    let p : Project :=
      { id := s.nextProjId, projectKey := normalizedKey,
        createdBy := some userEmail, firstGeneratedAt := some now,
        lastGeneratedAt := some now, totalGenerations := 0 }
    (p, { s with projects := s.projects ++ [p], nextProjId := s.nextProjId + 1 })
  | some p =>
    let p' := { p with lastGeneratedAt := some now }
    (p', { s with projects := s.projects.map (fun q => if q.id == p.id then p' else q) })

/-! ## OpenAIService.generateTestCases (src/unnamed/part_002) -/

/-- `this.maxRetries = 3` (part_002 line 51). -/
def maxRetries : Nat := 3

structure TokenUsage where
  promptTokens : Nat
  completionTokens : Nat
  totalTokens : Nat
  deriving DecidableEq, Repr

/-- Outcome of one `chat.completions.create` call: either a response whose
message content and usage we read, or a thrown error. -/
inductive ApiAttempt where
  | resp (content : String) (promptTokens completionTokens totalTokens : Nat)
  | exn (msg : String)
  deriving DecidableEq, Repr

structure GenSuccess where
  content : String
  tokenUsage : TokenUsage
  deriving DecidableEq, Repr

/-- The `while (retryCount < this.maxRetries)` loop of `generateTestCases`
(part_002 lines 71-114), with `attempts` supplying the outcome of each
successive API call.  The `throw lastError || new Error(...)` statement at the
bottom of the loop body sits after the try/catch but still inside the loop, so
after any caught failure (when the `retryCount === maxRetries` check did not
already rethrow) it throws before the loop can re-test its condition: the
remaining attempts are never consumed. -/
def generateLoop (attempts : List ApiAttempt) (retryCount : Nat) :
    Except String GenSuccess :=
  if retryCount < maxRetries then
    match attempts with
    | [] => Except.error "no API response modelled"
    | a :: _rest =>
      match a with
      | ApiAttempt.resp content pt ct tt =>
        if content = "" then
          -- `throw new Error('Empty response from OpenAI')` is raised inside
          -- the try, lands in the catch, and the loop-bottom `throw lastError`
          -- rethrows it.
          Except.error "Empty response from OpenAI"
        else
          Except.ok { content := content,
                      tokenUsage := { promptTokens := pt, completionTokens := ct,
                                      totalTokens := tt } }
      | ApiAttempt.exn m =>
        -- catch: `lastError = error; retryCount++;`
        if retryCount + 1 = maxRetries then
          Except.error m  -- `if (retryCount === this.maxRetries) throw error`
        else
          Except.error m  -- the unconditional `throw lastError` at the loop bottom
  else
    Except.error "loop exited without a value"

/-- `OpenAIService.generateTestCases` (part_002 lines 54-121).  The first line
of its body evaluates `autoMode ? AUTO_PROMPT : MANUAL_PROMPT`; `AUTO_PROMPT`
is referenced but never defined anywhere in the module, so `autoMode = true`
raises a ReferenceError before the first API call (rethrown by the outer
catch).  With `autoMode = false` the retry loop runs starting at
`retryCount = 0`. -/
def generateTestCases (autoMode : Bool) (attempts : List ApiAttempt) :
    Except String GenSuccess :=
  if autoMode then Except.error "AUTO_PROMPT is not defined"
  else generateLoop attempts 0

/-! ## Routes (src/src/routes/generations.js) -/

/-- Outcome of `jira.getIssue` as the POST `/testcases` route consumes it
(lines 224-240): on success the route reads `fields.summary || ""` and the
ADF-extracted description; on failure an error message. -/
inductive JiraOutcome where
  | ok (summary description : String)
  | fail (errMsg : String)
  deriving DecidableEq, Repr

inductive CreateOutcome where
  | err (status : Nat) (msg : String)
  | ok (genId : Nat) (content : String)
  deriving DecidableEq, Repr

/-- The generation document constructed at lines 200-206 of generations.js,
with the schema defaults applied: no `status` value (the schema has neither a
default nor `required` for it), `published = false`, `currentVersion = 1`,
`versions = []`. -/
def initialGeneration (genId : Nat) (issueKey actor : String)
    (projectField : Option Nat) (now : Nat) : Generation :=
  { id := genId, issueKey := issueKey, email := actor,
    project := projectField, mode := some "manual", status := none,
    startedAt := some now, completedAt := none, error := none,
    published := false, publishedAt := none, publishedBy := none,
    result := none, versions := [], currentVersion := 1 }

/-- The part of POST `/testcases` (lines 185-220) that runs before the route
contacts JIRA or OpenAI: resolve the project, persist the new generation
document, and run the project-stats block.

`project = findOrCreateProject(projectKey, req.user.email)` (line 190) calls an
async function without `await`: the promise still executes, so the registry
side effects happen, but the route-local `project` variable holds a pending
Promise object — it is truthy, and reading `._id` on it yields `undefined`.
Consequently the document's `project` field is set from `undefined` (left
unset) and the stats block's `Project.findById(project._id)` resolves to null,
so the `totalGenerations` recount below it never runs. -/
def createGenStart (s : Store) (actor issueKey : String) (now : Nat) : Store :=
  let projectKey := extractProjectKey issueKey
  let s :=
    match projectKey with
    | some k => (findOrCreateProject s k actor now).2
    | none => s
  let projectTruthy := projectKey.isSome  -- a pending Promise is truthy
  let projectIdField : Option Nat := none  -- `project._id` on a Promise is undefined
  let genId := s.nextGenId
  let gen := initialGeneration genId issueKey actor
    (if projectTruthy then projectIdField else none) now
  let s := { s with gens := s.gens ++ [gen], nextGenId := genId + 1 }
  -- `if (project) { const updatedProject = await Project.findById(project._id); ... }`
  if projectTruthy then
    match findProj s projectIdField with
    | none => s
    | some p =>
      let total := (s.gens.filter (fun g => g.project == some p.id)).length
      { s with projects := (s.projects.map
          (fun q => if q.id == p.id then { p with totalGenerations := total } else q)) }
  else s

/-- POST `/testcases` (generations.js lines 176-319).  `jira` and `attempts`
stand for the outcomes of the external JIRA and OpenAI calls. -/
def createGeneration (s : Store) (actor issueKey : String) (autoMode : Bool)
    (jira : JiraOutcome) (attempts : List ApiAttempt) (now : Nat) :
    CreateOutcome × Store :=
  if issueKey = "" then (CreateOutcome.err 400 "issueKey is required", s)
  else
    let s := createGenStart s actor issueKey now
    let genId := s.nextGenId - 1
    match jira with
    | JiraOutcome.fail e =>
      let msg := if e = "" then "Failed to fetch issue from JIRA" else e
      let s := updateGen s genId (fun g =>
        { g with status := some "failed", error := some msg, completedAt := some now })
      (CreateOutcome.err 404 e, s)
    | JiraOutcome.ok summary _description =>
      match generateTestCases autoMode attempts with
      | Except.error e =>
        let s := updateGen s genId (fun g =>
          { g with status := some "failed",
                   error := some ("OpenAI generation failed: " ++ e),
                   completedAt := some now })
        (CreateOutcome.err 500 (if e = "" then "Failed to generate test cases" else e), s)
      | Except.ok r =>
        -- `if (!markdownContent.startsWith("#")) markdownContent = ...`
        let content :=
          if jsStartsWith r.content "#" then r.content
          else "# Test Cases for " ++ issueKey ++ ": "
               ++ (if summary = "" then "Untitled" else summary) ++ "\n\n" ++ r.content
        let s := updateGen s genId (fun g =>
          { g with status := some "completed", completedAt := some now,
                   result := some { filename :=
                                      issueKey ++ "_testcases_" ++ toString genId ++ ".md",
                                    content := content },
                   currentVersion := 1, versions := [] })
        (CreateOutcome.ok genId content, s)

/-- The `data` object returned by GET `/:id/view` (lines 367-390), restricted
to fields of the modelled document. -/
structure ViewData where
  email : String
  content : String
  filename : String
  published : Bool
  publishedAt : Option Nat
  publishedBy : Option String
  currentVersion : Nat
  versions : List Version
  lastUpdatedBy : String
  deriving DecidableEq, Repr

inductive ViewOutcome where
  | err (status : Nat) (msg : String)
  | ok (data : ViewData)
  deriving DecidableEq, Repr

/-- GET `/:id/view` (generations.js lines 321-394). -/
def viewGeneration (s : Store) (id : Nat) (actor : String) : ViewOutcome :=
  match findGen s id with
  | none => ViewOutcome.err 404 "Generation not found!"
  | some gen =>
    let isOwner := gen.email = actor
    let isPublishedAndCompleted := gen.published = true ∧ gen.status = some "completed"
    if ¬isOwner ∧ ¬isPublishedAndCompleted then
      ViewOutcome.err 404 "Not found!"
    else if gen.status ≠ some "completed" then
      ViewOutcome.err 400 "Generation not completed yet"
    else
      let latestVersion := gen.versions.getLast?
      ViewOutcome.ok
        { email := gen.email,
          content := (gen.result.map (fun m => m.content)).getD "",
          filename := (gen.result.map (fun m => m.filename)).getD "output.md",
          published := gen.published,
          publishedAt := gen.publishedAt,
          publishedBy := gen.publishedBy,
          currentVersion := gen.currentVersion,
          versions := gen.versions,
          lastUpdatedBy := (latestVersion.map (fun v => v.updatedBy)).getD gen.email }

inductive ReviseOutcome where
  | err (status : Nat) (msg : String)
  | ok (content : String) (currentVersion : Nat)
  deriving DecidableEq, Repr

/-- PUT `/:id/content` (generations.js lines 396-477).  `content = none`
stands for a request body whose `content` is not a string. -/
def reviseContent (s : Store) (id : Nat) (actor : String)
    (content : Option String) (now : Nat) : ReviseOutcome × Store :=
  match content with
  | none => (ReviseOutcome.err 400 "Content is required!", s)
  | some content =>
    if jsTrim content = "" then (ReviseOutcome.err 400 "Content is required!", s)
    else
      match findGen s id with
      | none => (ReviseOutcome.err 404 "Generation not found!", s)
      | some gen =>
        if gen.email ≠ actor then (ReviseOutcome.err 404 "Generation not found!", s)
        else if gen.status ≠ some "completed" then
          (ReviseOutcome.err 400 "Only completed generations can be updated!", s)
        else
          let currentContent := (gen.result.map (fun m => m.content)).getD ""
          let gen : Generation :=
            if currentContent ≠ "" ∧ currentContent ≠ content then
              -- `const currentVersionNumber = gen.currentVersion || 1;`
              let currentVersionNumber :=
                if gen.currentVersion = 0 then 1 else gen.currentVersion
              let versionExists :=
                gen.versions.any (fun v => v.versionNumber == currentVersionNumber)
              let gen :=
                if versionExists then gen
                else { gen with versions := gen.versions ++
                        [{ versionNumber := currentVersionNumber,
                           content := currentContent,
                           updatedBy := actor, updatedAt := now }] }
              { gen with currentVersion := currentVersionNumber + 1 }
            else gen
          -- `gen.result.markdown.content = content` (creating empty objects
          -- along the path when absent)
          let gen : Generation := { gen with result :=
            (some { filename := (gen.result.map (fun m => m.filename)).getD "",
                    content := content }) }
          let s := { s with gens := s.gens.map (fun g => if g.id == id then gen else g) }
          -- response: `currentVersion: gen.currentVersion || 1`
          let respVersion : Nat := if gen.currentVersion = 0 then 1 else gen.currentVersion
          (ReviseOutcome.ok content respVersion, s)

inductive PublishOutcome where
  | err (status : Nat) (msg : String)
  | ok (published : Bool) (publishedAt : Option Nat) (publishedBy : Option String)
  deriving DecidableEq, Repr

/-- PUT `/:id/publish` (generations.js lines 479-530).  `published = none`
stands for a request body whose `published` is not a boolean. -/
def setPublished (s : Store) (id : Nat) (actor : String)
    (published : Option Bool) (now : Nat) : PublishOutcome × Store :=
  match published with
  | none => (PublishOutcome.err 400 "Published status must be a boolean!", s)
  | some pub =>
    match findGen s id with
    | none => (PublishOutcome.err 404 "Generation not found!", s)
    | some gen =>
      if gen.email ≠ actor then (PublishOutcome.err 404 "Generation not found!", s)
      else if gen.status ≠ some "completed" then
        (PublishOutcome.err 400 "Only completed generations can be published!", s)
      else
        let gen :=
          if pub then
            { gen with published := true, publishedAt := some now,
                       publishedBy := some actor }
          else
            { gen with published := false, publishedAt := none, publishedBy := none }
        let s := { s with gens := s.gens.map (fun g => if g.id == id then gen else g) }
        (PublishOutcome.ok gen.published gen.publishedAt gen.publishedBy, s)

inductive DeleteOutcome where
  | err (status : Nat) (msg : String)
  | ok
  deriving DecidableEq, Repr

/-- DELETE `/:id` (generations.js lines 570-607). -/
def deleteGeneration (s : Store) (id : Nat) (actor : String) :
    DeleteOutcome × Store :=
  match findGen s id with
  | none => (DeleteOutcome.err 404 "Generation not found", s)
  | some gen =>
    if gen.email ≠ actor then
      (DeleteOutcome.err 403 "You can only delete your own generations", s)
    else
      (DeleteOutcome.ok, { s with gens := s.gens.filter (fun g => g.id ≠ id) })

/-! ## Invariants and reachability -/

/-- `max(versions.versionNumber, default 0)`. -/
def maxVN (vs : List Version) : Nat :=
  vs.foldr (fun v m => max v.versionNumber m) 0

/-- The per-document invariant: the status field satisfies the schema's enum
validation, and a completed generation has a non-empty current content, no
duplicate archived version numbers (they are strictly increasing in insertion
order), and `currentVersion = max(versions.versionNumber, default 0) + 1`. -/
def GenInv (g : Generation) : Prop :=
  statusEnumOk g.status = true ∧
  (g.status = some "completed" →
    (∃ m, g.result = some m ∧ m.content ≠ "") ∧
    List.Pairwise (fun a b => a < b) (g.versions.map (fun v => v.versionNumber)) ∧
    g.currentVersion = maxVN g.versions + 1)

/-- The store invariant: document ids are distinct and below the fresh-id
counter, and every document satisfies `GenInv`. -/
def StoreInv (s : Store) : Prop :=
  (s.gens.map (fun g => g.id)).Nodup ∧
  (∀ g ∈ s.gens, g.id < s.nextGenId) ∧
  (∀ g ∈ s.gens, GenInv g)

/-- Stores reachable from the empty database through the service's
operations. -/
inductive Reachable : Store → Prop where
  | init : Reachable Store.init
  | create (s : Store) (actor issueKey : String) (autoMode : Bool)
      (jira : JiraOutcome) (attempts : List ApiAttempt) (now : Nat) :
      Reachable s →
      Reachable (createGeneration s actor issueKey autoMode jira attempts now).2
  | revise (s : Store) (id : Nat) (actor : String) (content : Option String)
      (now : Nat) : Reachable s → Reachable (reviseContent s id actor content now).2
  | publish (s : Store) (id : Nat) (actor : String) (published : Option Bool)
      (now : Nat) : Reachable s → Reachable (setPublished s id actor published now).2
  | delete (s : Store) (id : Nat) (actor : String) :
      Reachable s → Reachable (deleteGeneration s id actor).2

/-- One externally triggered mutating operation. -/
inductive OpStep : Store → Store → Prop where
  | create (s : Store) (actor issueKey : String) (autoMode : Bool)
      (jira : JiraOutcome) (attempts : List ApiAttempt) (now : Nat) :
      OpStep s (createGeneration s actor issueKey autoMode jira attempts now).2
  | revise (s : Store) (id : Nat) (actor : String) (content : Option String)
      (now : Nat) : OpStep s (reviseContent s id actor content now).2
  | publish (s : Store) (id : Nat) (actor : String) (published : Option Bool)
      (now : Nat) : OpStep s (setPublished s id actor published now).2
  | delete (s : Store) (id : Nat) (actor : String) :
      OpStep s (deleteGeneration s id actor).2

/-! ## Concrete scenario stores, used by counterexamples and witnesses -/

/-- One successful OpenAI call. -/
def atts1 : List ApiAttempt := [ApiAttempt.resp "# Test Cases" 10 20 30]

/-- Store after a successful POST `/testcases` for `TES-1` by `a@b`. -/
def s1 : Store :=
  (createGeneration Store.init "a@b" "TES-1" false
    (JiraOutcome.ok "Sum" "Desc") atts1 5).2

/-- The completed generation document living in `s1`. -/
def g1 : Generation :=
  { id := 0, issueKey := "TES-1", email := "a@b", project := none,
    mode := some "manual", status := some "completed", startedAt := some 5,
    completedAt := some 5, error := none, published := false,
    publishedAt := none, publishedBy := none,
    result := some { filename := "TES-1_testcases_0.md", content := "# Test Cases" },
    versions := [], currentVersion := 1 }

/-- The markdown value stored in `g1`. -/
def mk1 : Markdown := { filename := "TES-1_testcases_0.md", content := "# Test Cases" }

/-- Store after additionally revising the content of generation 0 to `"B"`. -/
def s2 : Store := (reviseContent s1 0 "a@b" (some "B") 7).2

/-- The markdown value stored in `g2`. -/
def mk2 : Markdown := { filename := "TES-1_testcases_0.md", content := "B" }

/-- The revised generation document living in `s2`. -/
def g2 : Generation :=
  { g1 with
    result := some { filename := "TES-1_testcases_0.md", content := "B" },
    versions := [{ versionNumber := 1, content := "# Test Cases",
                   updatedBy := "a@b", updatedAt := 7 }],
    currentVersion := 2 }

/-- Store after a POST `/testcases` whose JIRA fetch failed: the generation is
`failed`. -/
def sFail : Store :=
  (createGeneration Store.init "a@b" "TES-1" false (JiraOutcome.fail "nope") [] 0).2

/-- The failed generation document living in `sFail`. -/
def gFail : Generation :=
  { id := 0, issueKey := "TES-1", email := "a@b", project := none,
    mode := some "manual", status := some "failed", startedAt := some 0,
    completedAt := some 0, error := some "nope", published := false,
    publishedAt := none, publishedBy := none, result := none,
    versions := [], currentVersion := 1 }

/-- Store holding the registered project `TES` (id 0) and nothing else. -/
def sProj : Store := (findOrCreateProject Store.init "TES" "a@b" 0).2

/-- Store after the owner publishes generation 0 of `s1`. -/
def sPub : Store := (setPublished s1 0 "a@b" (some true) 9).2

/-- The published generation document living in `sPub`. -/
def gPub : Generation :=
  { g1 with published := true, publishedAt := some 9, publishedBy := some "a@b" }

/-! ## Basic lemmas about the store -/

lemma findGen_mem {s : Store} {id : Nat} {g : Generation}
    (h : findGen s id = some g) : g ∈ s.gens ∧ g.id = id := by
  unfold findGen at h
  refine ⟨List.mem_of_find?_eq_some h, ?_⟩
  have hp := List.find?_some h
  simpa using hp

lemma find?_id_of_mem {l : List Generation}
    (hnd : (l.map (fun g => g.id)).Nodup) {g : Generation} (hg : g ∈ l) :
    l.find? (fun x => x.id == g.id) = some g := by
  induction l with
  | nil => cases hg
  | cons a t ih =>
    rw [List.map_cons, List.nodup_cons] at hnd
    rcases List.mem_cons.mp hg with rfl | hgt
    · simp [List.find?_cons]
    · have hne : (a.id == g.id) = false := by
        rw [beq_eq_false_iff_ne]
        intro he
        exact hnd.1 (he ▸ List.mem_map_of_mem (fun g => g.id) hgt)
      rw [List.find?_cons, hne]
      exact ih hnd.2 hgt

lemma findGen_of_mem {s : Store} (hnd : (s.gens.map (fun g => g.id)).Nodup)
    {g : Generation} (hg : g ∈ s.gens) : findGen s g.id = some g :=
  find?_id_of_mem hnd hg

lemma findGen_unique {s : Store} {id : Nat} {g g' : Generation}
    (hnd : (s.gens.map (fun g => g.id)).Nodup)
    (h : findGen s id = some g) (hg' : g' ∈ s.gens) (hid : g'.id = id) :
    g' = g := by
  have h2 := findGen_of_mem hnd hg'
  rw [hid, h] at h2
  injection h2 with h3
  exact h3.symm

/-! ## Lemmas about version numbers -/

lemma maxVN_cons (v : Version) (t : List Version) :
    maxVN (v :: t) = max v.versionNumber (maxVN t) := rfl

lemma le_maxVN {vs : List Version} {v : Version} (h : v ∈ vs) :
    v.versionNumber ≤ maxVN vs := by
  induction vs with
  | nil => cases h
  | cons a t ih =>
    rw [maxVN_cons]
    rcases List.mem_cons.mp h with rfl | ht
    · exact Nat.le_max_left _ _
    · exact Nat.le_trans (ih ht) (Nat.le_max_right _ _)

lemma maxVN_append_single (vs : List Version) (v : Version) :
    maxVN (vs ++ [v]) = max (maxVN vs) v.versionNumber := by
  induction vs with
  | nil => simp [maxVN]
  | cons a t ih =>
    rw [List.cons_append, maxVN_cons, ih, maxVN_cons, Nat.max_assoc]

lemma any_vn_eq_false {vs : List Version} {n : Nat}
    (h : ∀ v ∈ vs, v.versionNumber < n) :
    vs.any (fun v => v.versionNumber == n) = false := by
  induction vs with
  | nil => rfl
  | cons a t ih =>
    rw [List.any_cons, Bool.or_eq_false_iff]
    refine ⟨?_, ih (fun v hv => h v (List.mem_cons_of_mem a hv))⟩
    rw [beq_eq_false_iff_ne]
    exact Nat.ne_of_lt (h a (List.mem_cons_self a t))

/-! ## Invariant preservation -/

lemma map_update_ids (l : List Generation) (id : Nat) (g' : Generation)
    (hid : g'.id = id) :
    (l.map (fun g => if g.id == id then g' else g)).map (fun g => g.id)
      = l.map (fun g => g.id) := by
  induction l with
  | nil => rfl
  | cons a t ih =>
    simp only [List.map_cons, List.cons.injEq]
    refine ⟨?_, ih⟩
    by_cases h : a.id = id
    · simp [h, hid]
    · simp [h]

lemma storeInv_map_update {s : Store} (hinv : StoreInv s) {id : Nat}
    {g' : Generation} (hid : g'.id = id) (hg' : GenInv g')
    (hlt : id < s.nextGenId) :
    StoreInv { s with gens := s.gens.map (fun g => if g.id == id then g' else g) } := by
  obtain ⟨hnd, hidlt, hgen⟩ := hinv
  refine ⟨?_, ?_, ?_⟩
  · show ((s.gens.map _).map _).Nodup
    rw [map_update_ids _ _ _ hid]
    exact hnd
  · intro g hg
    rcases List.mem_map.mp hg with ⟨g0, hg0, rfl⟩
    by_cases h : g0.id = id
    · simpa [h, hid] using hlt
    · simpa [h] using hidlt g0 hg0
  · intro g hg
    rcases List.mem_map.mp hg with ⟨g0, hg0, rfl⟩
    by_cases h : g0.id = id
    · simpa [h] using hg'
    · simpa [h] using hgen g0 hg0

lemma map_updateF_ids (l : List Generation) (id : Nat)
    (f : Generation → Generation) (hf : ∀ g, (f g).id = g.id) :
    (l.map (fun g => if g.id == id then f g else g)).map (fun g => g.id)
      = l.map (fun g => g.id) := by
  induction l with
  | nil => rfl
  | cons a t ih =>
    simp only [List.map_cons, List.cons.injEq]
    refine ⟨?_, ih⟩
    by_cases h : a.id = id
    · simp [h, hf]
    · simp [h]

lemma storeInv_updateGen {s : Store} (hinv : StoreInv s) (id : Nat)
    (f : Generation → Generation) (hfid : ∀ g, (f g).id = g.id)
    (hf : ∀ g, GenInv g → GenInv (f g)) : StoreInv (updateGen s id f) := by
  obtain ⟨hnd, hidlt, hgen⟩ := hinv
  refine ⟨?_, ?_, ?_⟩
  · show ((s.gens.map _).map _).Nodup
    rw [map_updateF_ids _ _ _ hfid]
    exact hnd
  · intro g hg
    rcases List.mem_map.mp hg with ⟨g0, hg0, rfl⟩
    by_cases h : g0.id = id
    · simpa [h, hfid] using hidlt g0 hg0
    · simpa [h] using hidlt g0 hg0
  · intro g hg
    rcases List.mem_map.mp hg with ⟨g0, hg0, rfl⟩
    by_cases h : g0.id = id
    · simpa [h] using hf g0 (hgen g0 hg0)
    · simpa [h] using hgen g0 hg0

lemma storeInv_of_fields {s s' : Store} (hg : s'.gens = s.gens)
    (hn : s'.nextGenId = s.nextGenId) (h : StoreInv s) : StoreInv s' := by
  unfold StoreInv at *
  rw [hg, hn]
  exact h

lemma genInv_initial (genId : Nat) (issueKey actor : String)
    (pf : Option Nat) (now : Nat) :
    GenInv (initialGeneration genId issueKey actor pf now) := by
  refine ⟨rfl, ?_⟩
  intro h
  simp [initialGeneration] at h

lemma storeInv_insert {s : Store} (hinv : StoreInv s) {g : Generation}
    (hg : GenInv g) (hid : g.id = s.nextGenId) :
    StoreInv { s with gens := s.gens ++ [g], nextGenId := s.nextGenId + 1 } := by
  obtain ⟨hnd, hidlt, hgen⟩ := hinv
  refine ⟨?_, ?_, ?_⟩
  · show ((s.gens ++ [g]).map _).Nodup
    rw [List.map_append]
    rw [List.nodup_append]
    refine ⟨hnd, List.nodup_singleton _, ?_⟩
    intro a ha hb
    simp at hb
    rcases List.mem_map.mp ha with ⟨g0, hg0, rfl⟩
    have := hidlt g0 hg0
    omega
  · intro g0 hg0
    rcases List.mem_append.mp hg0 with h | h
    · exact Nat.lt_succ_of_lt (hidlt g0 h)
    · simp at h
      subst h
      show g0.id < s.nextGenId + 1
      omega
  · intro g0 hg0
    rcases List.mem_append.mp hg0 with h | h
    · exact hgen g0 h
    · simp at h
      subst h
      exact hg

lemma storeInv_filter {s : Store} (hinv : StoreInv s)
    (p : Generation → Bool) :
    StoreInv { s with gens := s.gens.filter p } := by
  obtain ⟨hnd, hidlt, hgen⟩ := hinv
  refine ⟨?_, ?_, ?_⟩
  · show ((s.gens.filter p).map _).Nodup
    exact List.Nodup.sublist (List.Sublist.map _ (List.filter_sublist _)) hnd
  · intro g hg
    exact hidlt g (List.mem_of_mem_filter hg)
  · intro g hg
    exact hgen g (List.mem_of_mem_filter hg)

lemma append_ne_empty_left (a b : String) (h : a ≠ "") : a ++ b ≠ "" := by
  intro he
  apply h
  have hd : a.data ++ b.data = [] := by
    have h2 := congrArg String.data he
    simpa [String.data_append] using h2
  have ha := (List.append_eq_nil.mp hd).1
  cases a with
  | mk d =>
    cases ha
    rfl

lemma generateTestCases_ok_content {am : Bool} {atts : List ApiAttempt}
    {r : GenSuccess} (h : generateTestCases am atts = Except.ok r) :
    r.content ≠ "" := by
  cases am with
  | true => simp [generateTestCases] at h
  | false =>
    cases atts with
    | nil => simp [generateTestCases, generateLoop, maxRetries] at h
    | cons a rest =>
      cases a with
      | resp c pt ct tt =>
        by_cases hc : c = ""
        · simp [generateTestCases, generateLoop, maxRetries, hc] at h
        · simp [generateTestCases, generateLoop, maxRetries, hc] at h
          subst h
          simpa using hc
      | exn m => simp [generateTestCases, generateLoop, maxRetries] at h

lemma findOrCreateProject_gens (s : Store) (k e : String) (now : Nat) :
    ((findOrCreateProject s k e now).2).gens = s.gens
      ∧ ((findOrCreateProject s k e now).2).nextGenId = s.nextGenId := by
  unfold findOrCreateProject
  refine ⟨?_, ?_⟩ <;> (dsimp only; split <;> rfl)

lemma createGenStart_spec (s : Store) (actor issueKey : String) (now : Nat) :
    (createGenStart s actor issueKey now).gens
      = s.gens ++ [initialGeneration s.nextGenId issueKey actor none now] ∧
    (createGenStart s actor issueKey now).nextGenId = s.nextGenId + 1 := by
  unfold createGenStart
  cases hpk : extractProjectKey issueKey with
  | none => simp [findProj]
  | some k =>
    have h := findOrCreateProject_gens s k actor now
    simp [findProj, h.1, h.2]

lemma storeInv_createGenStart {s : Store} (hinv : StoreInv s)
    (actor issueKey : String) (now : Nat) :
    StoreInv (createGenStart s actor issueKey now) := by
  have hspec := createGenStart_spec s actor issueKey now
  have hmid : StoreInv { s with
      gens := s.gens ++ [initialGeneration s.nextGenId issueKey actor none now],
      nextGenId := s.nextGenId + 1 } :=
    storeInv_insert hinv (genInv_initial _ _ _ _ _) rfl
  exact storeInv_of_fields hspec.1 hspec.2 hmid

lemma storeInv_create {s : Store} (hinv : StoreInv s)
    (actor issueKey : String) (autoMode : Bool) (jira : JiraOutcome)
    (attempts : List ApiAttempt) (now : Nat) :
    StoreInv (createGeneration s actor issueKey autoMode jira attempts now).2 := by
  unfold createGeneration
  by_cases hik : issueKey = ""
  · rw [if_pos hik]
    exact hinv
  · rw [if_neg hik]
    have h1 := storeInv_createGenStart hinv actor issueKey now
    cases jira with
    | fail e =>
      exact storeInv_updateGen h1 _ _ (fun g => rfl)
        (fun g hg => ⟨rfl, by intro hc; simp at hc⟩)
    | ok summary description =>
      cases hgen : generateTestCases autoMode attempts with
      | error e =>
        exact storeInv_updateGen h1 _ _ (fun g => rfl)
          (fun g hg => ⟨rfl, by intro hc; simp at hc⟩)
      | ok r =>
        refine storeInv_updateGen h1 _ _ (fun g => rfl) (fun g hg => ?_)
        refine ⟨rfl, fun _ => ⟨?_, ?_, ?_⟩⟩
        · refine ⟨_, rfl, ?_⟩
          by_cases hs : jsStartsWith r.content "#"
          · rw [if_pos hs]
            exact generateTestCases_ok_content hgen
          · rw [if_neg hs]
            exact append_ne_empty_left _ _ (append_ne_empty_left _ _
              (append_ne_empty_left _ _ (append_ne_empty_left _ _
                (append_ne_empty_left _ _ (by decide)))))
        · simp
        · simp [maxVN]

/-- The `versions` entry a content-changing revision archives: the prior
content, tagged with the prior `currentVersion`. -/
def archivedVersion (gen : Generation) (m : Markdown) (actor : String)
    (now : Nat) : Version :=
  { versionNumber := gen.currentVersion, content := m.content,
    updatedBy := actor, updatedAt := now }

/-- The document written back by a content-changing revision: the prior content
is archived under the prior `currentVersion`, the version counter advances, and
the markdown content is replaced. -/
def revisedGen (gen : Generation) (m : Markdown) (actor c : String)
    (now : Nat) : Generation :=
  { gen with
    versions := gen.versions ++ [archivedVersion gen m actor now],
    currentVersion := gen.currentVersion + 1,
    result := (some { filename := m.filename, content := c }) }

lemma reviseContent_changed {s : Store} {id : Nat} {actor c : String}
    {now : Nat} {gen : Generation} {m : Markdown}
    (hfind : findGen s id = some gen) (htrim : ¬ jsTrim c = "")
    (hown : gen.email = actor) (hst : gen.status = some "completed")
    (hm : gen.result = some m) (hmne : m.content ≠ "") (hdiff : m.content ≠ c)
    (hcv : ¬ gen.currentVersion = 0)
    (hnodup : gen.versions.any (fun v => v.versionNumber == gen.currentVersion) = false) :
    reviseContent s id actor (some c) now =
      (ReviseOutcome.ok c (gen.currentVersion + 1),
       { s with gens := s.gens.map (fun g =>
           if g.id == id then revisedGen gen m actor c now else g) }) := by
  unfold reviseContent
  dsimp only
  rw [if_neg htrim, hfind]
  dsimp only
  rw [if_neg (by simp [hown]), if_neg (by simp [hst])]
  simp only [hm, Option.map_some', Option.getD_some]
  rw [if_neg hcv]
  rw [hnodup]
  simp only [Bool.false_eq_true, if_false, if_pos (And.intro hmne hdiff),
    revisedGen, archivedVersion]
  rw [if_neg (Nat.succ_ne_zero gen.currentVersion)]
  simp only [Option.map_some', Option.getD_some]

lemma reviseContent_same {s : Store} {id : Nat} {actor : String}
    {now : Nat} {gen : Generation} {m : Markdown}
    (hfind : findGen s id = some gen) (htrim : ¬ jsTrim m.content = "")
    (hown : gen.email = actor) (hst : gen.status = some "completed")
    (hm : gen.result = some m) :
    reviseContent s id actor (some m.content) now =
      (ReviseOutcome.ok m.content
         (if gen.currentVersion = 0 then 1 else gen.currentVersion),
       { s with gens := s.gens.map (fun g => if g.id == id then gen else g) }) := by
  obtain ⟨fn, ct⟩ := m
  unfold reviseContent
  dsimp only
  rw [if_neg htrim, hfind]
  dsimp only
  rw [if_neg (by simp [hown]), if_neg (by simp [hst])]
  simp only [hm, Option.map_some', Option.getD_some]
  rw [if_neg (show ¬(ct ≠ "" ∧ ct ≠ ct) by simp)]
  simp only [hm, Option.map_some', Option.getD_some]
  rw [show ({ gen with result := some { filename := fn, content := ct } } : Generation)
        = gen from by rw [← hm]]

lemma map_update_not_mem {l : List Generation} {id : Nat}
    {gen : Generation} (h : id ∉ l.map (fun g => g.id)) :
    l.map (fun g => if g.id == id then gen else g) = l := by
  induction l with
  | nil => rfl
  | cons a t ih =>
    rw [List.map_cons, List.mem_cons] at h
    push_neg at h
    rw [List.map_cons, if_neg (by simpa using (Ne.symm h.1)), ih h.2]

lemma map_update_self {l : List Generation}
    (hnd : (l.map (fun g => g.id)).Nodup) {gen : Generation} (hmem : gen ∈ l) :
    l.map (fun g => if g.id == gen.id then gen else g) = l := by
  induction l with
  | nil => cases hmem
  | cons a t ih =>
    rw [List.map_cons, List.nodup_cons] at hnd
    rcases List.mem_cons.mp hmem with rfl | hmt
    · rw [List.map_cons, if_pos (by simp), map_update_not_mem hnd.1]
    · have hne : a.id ≠ gen.id := by
        intro he
        exact hnd.1 (he ▸ List.mem_map_of_mem (fun g => g.id) hmt)
      rw [List.map_cons, if_neg (by simpa using hne), ih hnd.2 hmt]

lemma genInv_revisedGen {gen : Generation} {m : Markdown} {actor c : String}
    {now : Nat} (hGI : GenInv gen) (hst : gen.status = some "completed")
    (hm : gen.result = some m) (hcne : c ≠ "") :
    GenInv (revisedGen gen m actor c now) := by
  obtain ⟨henum, hcompl⟩ := hGI
  obtain ⟨⟨m', hm', hm'ne⟩, hpw, hcv⟩ := hcompl hst
  refine ⟨henum, fun _ => ⟨⟨_, rfl, hcne⟩, ?_, ?_⟩⟩
  · have hv : (revisedGen gen m actor c now).versions
        = gen.versions ++ [archivedVersion gen m actor now] := rfl
    rw [hv, List.map_append, List.pairwise_append]
    refine ⟨hpw, List.pairwise_singleton _ _, ?_⟩
    intro a ha b hb
    simp only [archivedVersion, List.map_cons, List.map_nil,
      List.mem_singleton] at hb
    subst hb
    rcases List.mem_map.mp ha with ⟨v, hv', rfl⟩
    have hle := le_maxVN hv'
    omega
  · have hv : (revisedGen gen m actor c now).versions
        = gen.versions ++ [archivedVersion gen m actor now] := rfl
    rw [hv, maxVN_append_single]
    show gen.currentVersion + 1 = max (maxVN gen.versions) gen.currentVersion + 1
    rw [Nat.max_eq_right (by omega : maxVN gen.versions ≤ gen.currentVersion)]

lemma storeInv_revise {s : Store} (hinv : StoreInv s) (id : Nat)
    (actor : String) (content : Option String) (now : Nat) :
    StoreInv (reviseContent s id actor content now).2 := by
  cases content with
  | none => exact hinv
  | some c =>
    by_cases htrim : jsTrim c = ""
    · unfold reviseContent
      dsimp only
      rw [if_pos htrim]
      exact hinv
    · cases hfind : findGen s id with
      | none =>
        unfold reviseContent
        dsimp only
        rw [if_neg htrim, hfind]
        exact hinv
      | some gen =>
        by_cases hown : gen.email = actor
        · by_cases hst : gen.status = some "completed"
          · obtain ⟨hmem, hid⟩ := findGen_mem hfind
            have hGI := hinv.2.2 gen hmem
            obtain ⟨⟨m, hm, hmne⟩, hpw, hcv⟩ := hGI.2 hst
            by_cases hdiff : m.content = c
            · subst hdiff
              rw [reviseContent_same hfind htrim hown hst hm]
              exact storeInv_map_update hinv hid hGI (hid ▸ hinv.2.1 gen hmem)
            · have hcv0 : ¬ gen.currentVersion = 0 := by omega
              have hlt : ∀ v ∈ gen.versions, v.versionNumber < gen.currentVersion := by
                intro v hv
                have := le_maxVN hv
                omega
              rw [reviseContent_changed hfind htrim hown hst hm hmne hdiff hcv0
                    (any_vn_eq_false hlt)]
              have hcne : c ≠ "" := fun hc => htrim (by rw [hc]; rfl)
              exact storeInv_map_update hinv hid
                (genInv_revisedGen hGI hst hm hcne) (hid ▸ hinv.2.1 gen hmem)
          · unfold reviseContent
            dsimp only
            rw [if_neg htrim, hfind]
            dsimp only
            rw [if_neg (by simp [hown]), if_pos (by simp [hst])]
            exact hinv
        · unfold reviseContent
          dsimp only
          rw [if_neg htrim, hfind]
          dsimp only
          rw [if_pos (by simp [hown])]
          exact hinv

lemma publishedGenInv {gen : Generation} (hGI : GenInv gen)
    (pub : Bool) (actor : String) (now : Nat) :
    GenInv (if pub then
      { gen with published := true, publishedAt := some now,
                 publishedBy := some actor }
      else { gen with published := false, publishedAt := none,
                      publishedBy := none }) := by
  cases pub with
  | true => exact hGI
  | false => exact hGI

lemma storeInv_publish {s : Store} (hinv : StoreInv s) (id : Nat)
    (actor : String) (published : Option Bool) (now : Nat) :
    StoreInv (setPublished s id actor published now).2 := by
  cases published with
  | none => exact hinv
  | some pub =>
    cases hfind : findGen s id with
    | none =>
      unfold setPublished
      dsimp only
      rw [hfind]
      exact hinv
    | some gen =>
      by_cases hown : gen.email = actor
      · by_cases hst : gen.status = some "completed"
        · obtain ⟨hmem, hid⟩ := findGen_mem hfind
          have hGI := hinv.2.2 gen hmem
          unfold setPublished
          dsimp only
          rw [hfind]
          dsimp only
          rw [if_neg (by simp [hown]), if_neg (by simp [hst])]
          cases pub with
          | true =>
            rw [if_pos rfl]
            exact storeInv_map_update hinv hid (publishedGenInv hGI true actor now)
              (hid ▸ hinv.2.1 gen hmem)
          | false =>
            rw [if_neg (by simp)]
            exact storeInv_map_update hinv hid (publishedGenInv hGI false actor now)
              (hid ▸ hinv.2.1 gen hmem)
        · unfold setPublished
          dsimp only
          rw [hfind]
          dsimp only
          rw [if_neg (by simp [hown]), if_pos (by simp [hst])]
          exact hinv
      · unfold setPublished
        dsimp only
        rw [hfind]
        dsimp only
        rw [if_pos (by simp [hown])]
        exact hinv

lemma storeInv_delete {s : Store} (hinv : StoreInv s) (id : Nat)
    (actor : String) : StoreInv (deleteGeneration s id actor).2 := by
  unfold deleteGeneration
  cases hfind : findGen s id with
  | none => exact hinv
  | some gen =>
    dsimp only
    by_cases hown : gen.email = actor
    · rw [if_neg (by simp [hown])]
      exact storeInv_filter hinv _
    · rw [if_pos (by simp [hown])]
      exact hinv

lemma storeInv_init : StoreInv Store.init := by
  refine ⟨List.nodup_nil, ?_, ?_⟩ <;> intro g hg <;> cases hg

/-- Every reachable store satisfies the invariant. -/
lemma reachable_inv {s : Store} (h : Reachable s) : StoreInv s := by
  induction h with
  | init => exact storeInv_init
  | create s actor issueKey autoMode jira attempts now _ ih =>
    exact storeInv_create ih actor issueKey autoMode jira attempts now
  | revise s id actor content now _ ih => exact storeInv_revise ih id actor content now
  | publish s id actor published now _ ih => exact storeInv_publish ih id actor published now
  | delete s id actor _ ih => exact storeInv_delete ih id actor

/-! ## Locating documents in updated stores -/

lemma find?_map_invariant {l : List Generation} {h : Generation → Generation}
    {p : Generation → Bool}
    (hp : ∀ g, p (h g) = p g) (hfix : ∀ g, p g = true → h g = g) :
    (l.map h).find? p = l.find? p := by
  induction l with
  | nil => rfl
  | cons a t ih =>
    rw [List.map_cons]
    cases hpa : p a with
    | true =>
      rw [List.find?_cons_of_pos _ ((hp a).trans hpa), List.find?_cons_of_pos _ hpa,
        hfix a hpa]
    | false =>
      rw [List.find?_cons_of_neg _ (by rw [hp a, hpa]; exact Bool.false_ne_true),
        List.find?_cons_of_neg _ (by rw [hpa]; exact Bool.false_ne_true), ih]

lemma find?_map_update_found {l : List Generation} {id : Nat} {g g' : Generation}
    (hfind : l.find? (fun x => x.id == id) = some g) (hid : g'.id = id) :
    (l.map (fun x => if x.id == id then g' else x)).find? (fun x => x.id == id)
      = some g' := by
  induction l with
  | nil => simp at hfind
  | cons a t ih =>
    by_cases ha : a.id = id
    · rw [List.map_cons, if_pos (by simpa using ha)]
      exact List.find?_cons_of_pos _ (by simpa using hid)
    · rw [List.map_cons, if_neg (by simpa using ha)]
      rw [List.find?_cons_of_neg _ (by simpa using ha)] at hfind
      rw [List.find?_cons_of_neg _ (by simpa using ha)]
      exact ih hfind

lemma find?_filter_self {l : List Generation} {id : Nat} :
    (l.filter (fun g => g.id ≠ id)).find? (fun g => g.id == id) = none := by
  rw [List.find?_eq_none]
  intro a ha
  have h2 := (List.mem_filter.mp ha).2
  simp at h2
  simpa using h2

lemma find?_filter_of_ne {l : List Generation} {id did : Nat} (hne : id ≠ did) :
    (l.filter (fun g => g.id ≠ did)).find? (fun g => g.id == id)
      = l.find? (fun g => g.id == id) := by
  induction l with
  | nil => rfl
  | cons a t ih =>
    by_cases hd : a.id = did
    · rw [List.filter_cons_of_neg (by simpa using hd), ih,
        List.find?_cons_of_neg _ (by simp [hd]; exact (Ne.symm hne))]
    · rw [List.filter_cons_of_pos (by simpa using hd)]
      cases hpa : (a.id == id) with
      | true =>
        rw [@List.find?_cons_of_pos _ (fun g => g.id == id) a
              (t.filter fun g => decide (g.id ≠ did)) hpa,
            @List.find?_cons_of_pos _ (fun g => g.id == id) a t hpa]
      | false =>
        rw [List.find?_cons_of_neg _ (by rw [hpa]; exact Bool.false_ne_true),
          List.find?_cons_of_neg _ (by rw [hpa]; exact Bool.false_ne_true), ih]

lemma find?_append_some {l₁ l₂ : List Generation} {p : Generation → Bool}
    {g : Generation} (h : l₁.find? p = some g) : (l₁ ++ l₂).find? p = some g := by
  rw [List.find?_append, h]
  rfl

lemma find?_append_new {l : List Generation} {g : Generation} {id : Nat}
    (hid : g.id = id) (hall : ∀ a ∈ l, a.id ≠ id) :
    (l ++ [g]).find? (fun x => x.id == id) = some g := by
  rw [List.find?_append]
  rw [show l.find? (fun x => x.id == id) = none from by
    rw [List.find?_eq_none]
    intro a ha
    simpa using hall a ha]
  rw [List.find?_cons_of_pos _ (by simpa using hid)]
  rfl

/-! ## Shapes of the stores produced by each operation -/

lemma ite_proj {c : Prop} [Decidable c] {a b : Generation} {β : Type}
    (f : Generation → β) {v : β} (ha : f a = v) (hb : f b = v) :
    f (if c then a else b) = v := by
  split
  · exact ha
  · exact hb

lemma reviseContent_shape (s : Store) (id : Nat) (actor : String)
    (content : Option String) (now : Nat) :
    (reviseContent s id actor content now).2 = s ∨
    ∃ gen newGen : Generation, findGen s id = some gen ∧ newGen.id = gen.id ∧
      newGen.status = gen.status ∧
      (reviseContent s id actor content now).2
        = { s with gens := s.gens.map (fun g => if g.id == id then newGen else g) } := by
  cases content with
  | none => exact Or.inl rfl
  | some c =>
    by_cases htrim : jsTrim c = ""
    · left
      unfold reviseContent
      dsimp only
      rw [if_pos htrim]
    · cases hfind : findGen s id with
      | none =>
        left
        unfold reviseContent
        dsimp only
        rw [if_neg htrim, hfind]
      | some gen =>
        by_cases hown : gen.email = actor
        · by_cases hst : gen.status = some "completed"
          · right
            unfold reviseContent
            dsimp only
            rw [if_neg htrim, hfind]
            dsimp only
            rw [if_neg (by simp [hown]), if_neg (by simp [hst])]
            refine ⟨gen, _, rfl, ?_, ?_, rfl⟩
            · exact ite_proj (fun g => g.id)
                (ite_proj (fun g => g.id) rfl rfl) rfl
            · exact ite_proj (fun g => g.status)
                (ite_proj (fun g => g.status) rfl rfl) rfl
          · left
            unfold reviseContent
            dsimp only
            rw [if_neg htrim, hfind]
            dsimp only
            rw [if_neg (by simp [hown]), if_pos (by simp [hst])]
        · left
          unfold reviseContent
          dsimp only
          rw [if_neg htrim, hfind]
          dsimp only
          rw [if_pos (by simp [hown])]

lemma setPublished_shape (s : Store) (id : Nat) (actor : String)
    (published : Option Bool) (now : Nat) :
    (setPublished s id actor published now).2 = s ∨
    ∃ gen newGen : Generation, findGen s id = some gen ∧ newGen.id = gen.id ∧
      newGen.status = gen.status ∧
      (setPublished s id actor published now).2
        = { s with gens := s.gens.map (fun g => if g.id == id then newGen else g) } := by
  cases published with
  | none => exact Or.inl rfl
  | some pub =>
    cases hfind : findGen s id with
    | none =>
      left
      unfold setPublished
      dsimp only
      rw [hfind]
    | some gen =>
      by_cases hown : gen.email = actor
      · by_cases hst : gen.status = some "completed"
        · right
          unfold setPublished
          dsimp only
          rw [hfind]
          dsimp only
          rw [if_neg (by simp [hown]), if_neg (by simp [hst])]
          refine ⟨gen, _, rfl, ?_, ?_, rfl⟩
          · exact ite_proj (fun g => g.id) rfl rfl
          · exact ite_proj (fun g => g.status) rfl rfl
        · left
          unfold setPublished
          dsimp only
          rw [hfind]
          dsimp only
          rw [if_neg (by simp [hown]), if_pos (by simp [hst])]
      · left
        unfold setPublished
        dsimp only
        rw [hfind]
        dsimp only
        rw [if_pos (by simp [hown])]

lemma deleteGeneration_shape (s : Store) (id : Nat) (actor : String) :
    (deleteGeneration s id actor).2 = s ∨
    (deleteGeneration s id actor).2
      = { s with gens := s.gens.filter (fun g => g.id ≠ id) } := by
  unfold deleteGeneration
  cases hfind : findGen s id with
  | none => exact Or.inl rfl
  | some gen =>
    dsimp only
    by_cases hown : gen.email = actor
    · right
      rw [if_neg (by simp [hown])]
    · left
      rw [if_pos (by simp [hown])]

lemma createGeneration_shape (s : Store) (actor issueKey : String)
    (autoMode : Bool) (jira : JiraOutcome) (attempts : List ApiAttempt)
    (now : Nat) (hik : ¬ issueKey = "") :
    ∃ f : Generation → Generation,
      (createGeneration s actor issueKey autoMode jira attempts now).2
        = updateGen (createGenStart s actor issueKey now) s.nextGenId f ∧
      (∀ g, (f g).id = g.id) ∧ (∀ g, (f g).mode = g.mode) ∧
      (∀ g, (f g).startedAt = g.startedAt) ∧ (∀ g, (f g).email = g.email) ∧
      (∀ g, (f g).status = some "completed" ∨ (f g).status = some "failed") := by
  unfold createGeneration
  rw [if_neg hik]
  dsimp only
  rw [(createGenStart_spec s actor issueKey now).2, Nat.add_sub_cancel]
  cases jira with
  | fail e =>
    exact ⟨_, rfl, fun g => rfl, fun g => rfl, fun g => rfl, fun g => rfl,
      fun g => Or.inr rfl⟩
  | ok summary description =>
    cases hgen : generateTestCases autoMode attempts with
    | error e =>
      exact ⟨_, rfl, fun g => rfl, fun g => rfl, fun g => rfl, fun g => rfl,
        fun g => Or.inr rfl⟩
    | ok r =>
      exact ⟨_, rfl, fun g => rfl, fun g => rfl, fun g => rfl, fun g => rfl,
        fun g => Or.inl rfl⟩

lemma findGen_map_update_ne {s : Store} {rid id : Nat} {newGen : Generation}
    (hidn : newGen.id = rid) (hne : rid ≠ id) :
    findGen { s with gens := s.gens.map (fun g => if g.id == rid then newGen else g) } id
      = findGen s id := by
  show (s.gens.map _).find? _ = s.gens.find? _
  apply find?_map_invariant
  · intro g0
    by_cases hh : g0.id = rid
    · simp [hh, hidn]
    · simp [hh]
  · intro g0 hp0
    have hg0 : g0.id = id := by simpa using hp0
    rw [if_neg (by simp only [hg0, beq_iff_eq]; exact fun hcon => hne hcon.symm)]

lemma findGen_createGeneration_old {s : Store} {id : Nat} {g : Generation}
    (hinv : StoreInv s) (hfind : findGen s id = some g)
    (actor issueKey : String) (now : Nat)
    {f : Generation → Generation} (hfid : ∀ g0, (f g0).id = g0.id) :
    findGen (updateGen (createGenStart s actor issueKey now) s.nextGenId f) id
      = some g := by
  have hlt : id < s.nextGenId :=
    (findGen_mem hfind).2 ▸ hinv.2.1 g (findGen_mem hfind).1
  have h1 : ((s.gens ++ [initialGeneration s.nextGenId issueKey actor none now]).map
      (fun g0 => if g0.id == s.nextGenId then f g0 else g0)).find?
        (fun x => x.id == id)
      = (s.gens ++ [initialGeneration s.nextGenId issueKey actor none now]).find?
          (fun x => x.id == id) := by
    apply find?_map_invariant
    · intro g0
      by_cases hh : g0.id = s.nextGenId
      · simp [hh, hfid g0]
      · simp [hh]
    · intro g0 hp0
      have hg0 : g0.id = id := by simpa using hp0
      rw [if_neg (by simp only [hg0, beq_iff_eq]; omega)]
  show ((createGenStart s actor issueKey now).gens.map _).find? _ = some g
  rw [(createGenStart_spec s actor issueKey now).1, h1, find?_append_some hfind]

/-! ## Claim theorems -/

/-- C1 (counterexample): the record persisted by POST `/testcases` before the
external calls carries no `status` value at all (`some none` below is the
found document's absent status field), and the schema's enum
`['completed','failed']` does not even admit the string `"pending"` — so the
record is not persisted with `status = pending`. -/
theorem c1_counterexample :
    ((findGen (createGenStart Store.init "a@b" "TES-1" 0) 0).map
        (fun g => g.status)) = some none ∧
    statusEnumOk (some "pending") = false := by
  constructor
  · decide
  · decide

/-- C1 (amended): every generation record created by POST `/testcases` is
persisted before the external generator call begins with `startedAt` set to
the creation time and with no `status` value (the schema's enum admits only
`completed` and `failed`, and creation sets neither); for every stored
generation the status field is one of {unset, completed, failed}.  The
`createGenStart` stage takes no external outcome as input, and for every
external outcome the operation's final store is an update of that stage. -/
theorem c1_pending_status (s : Store) (actor issueKey : String) (now : Nat)
    (hreach : Reachable s) (hik : ¬ issueKey = "") :
    (∃ g, findGen (createGenStart s actor issueKey now) s.nextGenId = some g ∧
       g.status = none ∧ g.startedAt = some now ∧ g.email = actor ∧
       g.issueKey = issueKey) ∧
    (∀ autoMode jira attempts, ∃ f : Generation → Generation,
       (createGeneration s actor issueKey autoMode jira attempts now).2
         = updateGen (createGenStart s actor issueKey now) s.nextGenId f) ∧
    (∀ g ∈ s.gens, statusEnumOk g.status = true) := by
  have hinv := reachable_inv hreach
  refine ⟨?_, ?_, ?_⟩
  · refine ⟨initialGeneration s.nextGenId issueKey actor none now, ?_, rfl, rfl, rfl, rfl⟩
    show (createGenStart s actor issueKey now).gens.find? _ = _
    rw [(createGenStart_spec s actor issueKey now).1]
    exact find?_append_new rfl (fun a ha => Nat.ne_of_lt (hinv.2.1 a ha))
  · intro autoMode jira attempts
    obtain ⟨f, heq, _⟩ :=
      createGeneration_shape s actor issueKey autoMode jira attempts now hik
    exact ⟨f, heq⟩
  · intro g hg
    exact (hinv.2.2 g hg).1

/-- C1 (witness). -/
theorem c1_pending_status_witness :
    (∃ g, findGen (createGenStart Store.init "a@b" "TES-1" 0) 0 = some g ∧
       g.status = none ∧ g.startedAt = some 0 ∧ g.email = "a@b" ∧
       g.issueKey = "TES-1") ∧
    (∀ autoMode jira attempts, ∃ f : Generation → Generation,
       (createGeneration Store.init "a@b" "TES-1" autoMode jira attempts 0).2
         = updateGen (createGenStart Store.init "a@b" "TES-1" 0) 0 f) ∧
    (∀ g ∈ Store.init.gens, statusEnumOk g.status = true) :=
  c1_pending_status Store.init "a@b" "TES-1" 0 Reachable.init (by decide)

/-- C2: for every reachable store and every stored generation with
`status = completed`, the archived version numbers contain no duplicate,
`currentVersion = max(versions.versionNumber, default 0) + 1`, and
`currentVersion` strictly exceeds every archived version number.  Reachability
quantifies over every operation, so the invariant is preserved by all of them,
in particular by PUT `/:id/content`. -/
theorem c2_version_invariant (s : Store) (id : Nat) (g : Generation)
    (hreach : Reachable s) (hfind : findGen s id = some g)
    (hst : g.status = some "completed") :
    (g.versions.map (fun v => v.versionNumber)).Nodup ∧
    g.currentVersion = maxVN g.versions + 1 ∧
    ∀ v ∈ g.versions, v.versionNumber < g.currentVersion := by
  have hinv := reachable_inv hreach
  obtain ⟨hmem, _⟩ := findGen_mem hfind
  obtain ⟨_, hpw, hcv⟩ := (hinv.2.2 g hmem).2 hst
  refine ⟨hpw.imp (fun h => Nat.ne_of_lt h), hcv, fun v hv => ?_⟩
  have := le_maxVN hv
  omega

/-- C2 (witness): the invariant, evaluated on the store obtained by creating a
generation and then revising its content once. -/
theorem c2_version_invariant_witness :
    (g2.versions.map (fun v => v.versionNumber)).Nodup ∧
    g2.currentVersion = maxVN g2.versions + 1 ∧
    ∀ v ∈ g2.versions, v.versionNumber < g2.currentVersion :=
  c2_version_invariant s2 0 g2
    (Reachable.revise s1 0 "a@b" (some "B") 7
      (Reachable.create Store.init "a@b" "TES-1" false
        (JiraOutcome.ok "Sum" "Desc") atts1 5 Reachable.init))
    (by decide) (by decide)

/-- C3: revising a reachable completed generation as its owner with valid
content different from the current content returns `ok` with the bumped
version, and stores a document whose `versions` array is the old one plus
exactly one new entry holding the prior content tagged with the prior
`currentVersion`, whose `currentVersion` grew by exactly 1, and whose stored
content is the new content. -/
theorem c3_revision_appends (s : Store) (id : Nat) (actor c : String)
    (now : Nat) (gen : Generation) (m : Markdown)
    (hreach : Reachable s) (hfind : findGen s id = some gen)
    (hown : gen.email = actor) (hst : gen.status = some "completed")
    (hm : gen.result = some m) (htrim : ¬ jsTrim c = "") (hdiff : m.content ≠ c) :
    (reviseContent s id actor (some c) now).1
        = ReviseOutcome.ok c (gen.currentVersion + 1) ∧
    findGen (reviseContent s id actor (some c) now).2 id
        = some (revisedGen gen m actor c now) ∧
    (revisedGen gen m actor c now).versions
        = gen.versions ++ [archivedVersion gen m actor now] ∧
    (archivedVersion gen m actor now).versionNumber = gen.currentVersion ∧
    (archivedVersion gen m actor now).content = m.content ∧
    (revisedGen gen m actor c now).currentVersion = gen.currentVersion + 1 ∧
    (revisedGen gen m actor c now).result
        = some { filename := m.filename, content := c } := by
  have hinv := reachable_inv hreach
  obtain ⟨hmem, hid⟩ := findGen_mem hfind
  have hGI := hinv.2.2 gen hmem
  obtain ⟨⟨m', hm', hm'ne⟩, hpw, hcv⟩ := hGI.2 hst
  have hmne : m.content ≠ "" := by
    rw [hm] at hm'
    injection hm' with h2
    rw [h2]
    exact hm'ne
  have hcv0 : ¬ gen.currentVersion = 0 := by omega
  have hlt : ∀ v ∈ gen.versions, v.versionNumber < gen.currentVersion := by
    intro v hv
    have := le_maxVN hv
    omega
  rw [reviseContent_changed hfind htrim hown hst hm hmne hdiff hcv0
        (any_vn_eq_false hlt)]
  exact ⟨rfl, find?_map_update_found hfind hid, rfl, rfl, rfl, rfl, rfl⟩

/-- C3 (witness): revising the freshly created generation from
`"# Test Cases"` to `"B"` archives version 1 and moves to version 2. -/
theorem c3_revision_appends_witness :
    (reviseContent s1 0 "a@b" (some "B") 7).1 = ReviseOutcome.ok "B" 2 ∧
    findGen (reviseContent s1 0 "a@b" (some "B") 7).2 0
        = some (revisedGen g1 mk1 "a@b" "B" 7) ∧
    (revisedGen g1 mk1 "a@b" "B" 7).versions
        = g1.versions ++ [archivedVersion g1 mk1 "a@b" 7] ∧
    (archivedVersion g1 mk1 "a@b" 7).versionNumber = g1.currentVersion ∧
    (archivedVersion g1 mk1 "a@b" 7).content = mk1.content ∧
    (revisedGen g1 mk1 "a@b" "B" 7).currentVersion = g1.currentVersion + 1 ∧
    (revisedGen g1 mk1 "a@b" "B" 7).result
        = some { filename := mk1.filename, content := "B" } :=
  c3_revision_appends s1 0 "a@b" "B" 7 g1 mk1
    (Reachable.create Store.init "a@b" "TES-1" false
      (JiraOutcome.ok "Sum" "Desc") atts1 5 Reachable.init)
    (by decide) (by decide) (by decide) (by decide) (by decide) (by decide)

/-- C4: revising a reachable completed generation as its owner with content
identical to the current stored content leaves the store completely unchanged
— no version bump, no archival — and still answers `ok` with the unchanged
`currentVersion`. -/
theorem c4_identical_noop (s : Store) (id : Nat) (actor : String) (now : Nat)
    (gen : Generation) (m : Markdown)
    (hreach : Reachable s) (hfind : findGen s id = some gen)
    (hown : gen.email = actor) (hst : gen.status = some "completed")
    (hm : gen.result = some m) (htrim : ¬ jsTrim m.content = "") :
    (reviseContent s id actor (some m.content) now).2 = s ∧
    (reviseContent s id actor (some m.content) now).1
        = ReviseOutcome.ok m.content gen.currentVersion := by
  have hinv := reachable_inv hreach
  obtain ⟨hmem, hid⟩ := findGen_mem hfind
  obtain ⟨_, _, hcv⟩ := (hinv.2.2 gen hmem).2 hst
  have hmap : s.gens.map (fun g => if g.id == id then gen else g) = s.gens := by
    rw [← hid]
    exact map_update_self hinv.1 hmem
  rw [reviseContent_same hfind htrim hown hst hm, hmap]
  refine ⟨rfl, ?_⟩
  show ReviseOutcome.ok _ (if gen.currentVersion = 0 then 1 else gen.currentVersion) = _
  rw [if_neg (by omega : ¬ gen.currentVersion = 0)]

/-- C4 (witness): revising the already revised generation from `"B"` to `"B"`
changes nothing. -/
theorem c4_identical_noop_witness :
    (reviseContent s2 0 "a@b" (some "B") 8).2 = s2 ∧
    (reviseContent s2 0 "a@b" (some "B") 8).1 = ReviseOutcome.ok "B" 2 :=
  c4_identical_noop s2 0 "a@b" 8 g2 mk2
    (Reachable.revise s1 0 "a@b" (some "B") 7
      (Reachable.create Store.init "a@b" "TES-1" false
        (JiraOutcome.ok "Sum" "Desc") atts1 5 Reachable.init))
    (by decide) (by decide) (by decide) (by decide) (by decide)

/-- C5 (counterexample): the owner of a failed generation does not get a
successful view and does not get "not found" either — GET `/:id/view` answers
400 "Generation not completed yet", so "the view operation succeeds for the
owner regardless of published" is false as stated. -/
theorem c5_counterexample :
    viewGeneration sFail 0 "a@b"
        = ViewOutcome.err 400 "Generation not completed yet" ∧
    findGen sFail 0 = some gFail ∧ gFail.email = "a@b" ∧
    gFail.status = some "failed" := by
  refine ⟨?_, ?_, ?_, ?_⟩ <;> decide

/-- C5 (amended): GET `/:id/view` succeeds exactly when the generation is
completed and the actor is its owner or the generation is published; a
non-owner whose access is denied gets the 404 "Not found!" response; the owner
of a non-completed generation gets a 400 "Generation not completed yet"
response rather than a success or a "not found". -/
theorem c5_view_access (s : Store) (id : Nat) (actor : String) (g : Generation)
    (hfind : findGen s id = some g) :
    ((∃ d, viewGeneration s id actor = ViewOutcome.ok d)
        ↔ (g.status = some "completed" ∧ (g.email = actor ∨ g.published = true))) ∧
    (¬ g.email = actor → ¬(g.published = true ∧ g.status = some "completed") →
        viewGeneration s id actor = ViewOutcome.err 404 "Not found!") ∧
    (g.email = actor → ¬ g.status = some "completed" →
        viewGeneration s id actor = ViewOutcome.err 400 "Generation not completed yet") := by
  unfold viewGeneration
  rw [hfind]
  dsimp only
  by_cases hc : ¬ g.email = actor ∧ ¬(g.published = true ∧ g.status = some "completed")
  · rw [if_pos hc]
    refine ⟨?_, fun _ _ => rfl, fun hA => absurd hA hc.1⟩
    constructor
    · rintro ⟨d, hd⟩
      cases hd
    · rintro ⟨hst, hA | hpub⟩
      · exact absurd hA hc.1
      · exact absurd ⟨hpub, hst⟩ hc.2
  · rw [if_neg hc]
    by_cases hst : g.status = some "completed"
    · rw [if_neg (by simp [hst])]
      refine ⟨?_, ?_, fun _ hns => absurd hst hns⟩
      · constructor
        · intro _
          refine ⟨hst, ?_⟩
          by_cases hA : g.email = actor
          · exact Or.inl hA
          · push_neg at hc
            exact Or.inr (hc hA).1
        · intro _
          exact ⟨_, rfl⟩
      · intro hA hB
        push_neg at hc
        exact absurd (hc hA) hB
    · rw [if_pos (by simp [hst])]
      refine ⟨?_, ?_, fun _ _ => rfl⟩
      · constructor
        · rintro ⟨d, hd⟩
          cases hd
        · rintro ⟨hst', _⟩
          exact absurd hst' hst
      · intro hA hB
        push_neg at hc
        exact absurd (hc hA).2 hst

/-- C5 (witness): the owner's view of a completed generation succeeds. -/
theorem c5_view_access_witness :
    ((∃ d, viewGeneration s1 0 "a@b" = ViewOutcome.ok d)
        ↔ (g1.status = some "completed" ∧ (g1.email = "a@b" ∨ g1.published = true))) ∧
    (¬ g1.email = "a@b" → ¬(g1.published = true ∧ g1.status = some "completed") →
        viewGeneration s1 0 "a@b" = ViewOutcome.err 404 "Not found!") ∧
    (g1.email = "a@b" → ¬ g1.status = some "completed" →
        viewGeneration s1 0 "a@b" = ViewOutcome.err 400 "Generation not completed yet") :=
  c5_view_access s1 0 "a@b" g1 (by decide)

/-- C6 (code bug): `OpenAIService.generateTestCases` declares
`maxRetries = 3`, but the `throw lastError` statement at the bottom of the
while body runs after every caught failure, so the call aborts after the very
first failed attempt — a second attempt that would have succeeded is never
made, and POST `/testcases` marks the generation `failed` with the FIRST
failure's message, not the last attempt's. -/
theorem c6_retry_bug :
    generateTestCases false
        [ApiAttempt.exn "boom", ApiAttempt.resp "# ok" 1 1 2]
      = Except.error "boom" ∧
    ((findGen (createGeneration Store.init "a@b" "TES-1" false
        (JiraOutcome.ok "S" "D")
        [ApiAttempt.exn "boom", ApiAttempt.resp "# ok" 1 1 2] 0).2 0).map
      (fun g => (g.status, g.error)))
      = some (some "failed", some "OpenAI generation failed: boom") ∧
    generateTestCases false [ApiAttempt.resp "# ok" 1 1 2]
      = Except.ok ⟨"# ok", ⟨1, 1, 2⟩⟩ := by
  refine ⟨rfl, ?_, rfl⟩
  decide

/-- C8 (counterexample): a non-owner's DELETE on an existing generation is
answered with a distinct 403 "You can only delete your own generations"
response — not with the "not found" rendering the same non-owner receives
from PUT `/:id/content` — so the denial does leak the record's existence. -/
theorem c8_counterexample :
    (deleteGeneration s1 0 "x@y").1
        = DeleteOutcome.err 403 "You can only delete your own generations" ∧
    (reviseContent s1 0 "x@y" (some "zz") 9).1
        = ReviseOutcome.err 404 "Generation not found!" ∧
    findGen s1 0 = some g1 ∧ ¬ g1.email = "x@y" := by
  refine ⟨?_, ?_, ?_, ?_⟩ <;> decide

/-- C8 (amended): for an existing generation and a non-owner actor,
content-edit and publish-toggle denials are rendered with exactly the same
404 "Generation not found!" response as a missing record (and leave the store
unchanged), a view denial is a 404 "Not found!", but delete renders the denial
as a distinct 403 forbidden response naming the ownership rule. -/
theorem c8_denial_rendering (s : Store) (id : Nat) (actor c : String)
    (pub : Bool) (now : Nat) (g : Generation)
    (hfind : findGen s id = some g) (hown : ¬ g.email = actor)
    (htrim : ¬ jsTrim c = "") :
    (reviseContent s id actor (some c) now).1
        = ReviseOutcome.err 404 "Generation not found!" ∧
    (reviseContent s id actor (some c) now).2 = s ∧
    (setPublished s id actor (some pub) now).1
        = PublishOutcome.err 404 "Generation not found!" ∧
    (setPublished s id actor (some pub) now).2 = s ∧
    (¬(g.published = true ∧ g.status = some "completed") →
        viewGeneration s id actor = ViewOutcome.err 404 "Not found!") ∧
    (deleteGeneration s id actor).1
        = DeleteOutcome.err 403 "You can only delete your own generations" ∧
    (deleteGeneration s id actor).2 = s := by
  have hrev : reviseContent s id actor (some c) now
      = (ReviseOutcome.err 404 "Generation not found!", s) := by
    unfold reviseContent
    dsimp only
    rw [if_neg htrim, hfind]
    dsimp only
    rw [if_pos hown]
  have hpub : setPublished s id actor (some pub) now
      = (PublishOutcome.err 404 "Generation not found!", s) := by
    unfold setPublished
    dsimp only
    rw [hfind]
    dsimp only
    rw [if_pos hown]
  have hdel : deleteGeneration s id actor
      = (DeleteOutcome.err 403 "You can only delete your own generations", s) := by
    unfold deleteGeneration
    rw [hfind]
    dsimp only
    rw [if_pos hown]
  refine ⟨by rw [hrev], by rw [hrev], by rw [hpub], by rw [hpub], ?_,
    by rw [hdel], by rw [hdel]⟩
  intro hB
  unfold viewGeneration
  rw [hfind]
  dsimp only
  rw [if_pos ⟨hown, hB⟩]

/-- C8 (witness): the amended rendering, evaluated for the non-owner `x@y`
against the generation owned by `a@b`. -/
theorem c8_denial_rendering_witness :
    (reviseContent s1 0 "x@y" (some "zz") 9).1
        = ReviseOutcome.err 404 "Generation not found!" ∧
    (reviseContent s1 0 "x@y" (some "zz") 9).2 = s1 ∧
    (setPublished s1 0 "x@y" (some true) 9).1
        = PublishOutcome.err 404 "Generation not found!" ∧
    (setPublished s1 0 "x@y" (some true) 9).2 = s1 ∧
    (¬(g1.published = true ∧ g1.status = some "completed") →
        viewGeneration s1 0 "x@y" = ViewOutcome.err 404 "Not found!") ∧
    (deleteGeneration s1 0 "x@y").1
        = DeleteOutcome.err 403 "You can only delete your own generations" ∧
    (deleteGeneration s1 0 "x@y").2 = s1 :=
  c8_denial_rendering s1 0 "x@y" "zz" true 9 g1 (by decide) (by decide) (by decide)

/-- C9 (code bug): POST `/testcases` calls the async `findOrCreateProject`
without `await`, so the route's `project` variable is a pending Promise whose
`._id` is `undefined`.  Starting from a store that already holds the project
`TES`, creating a generation for `TES-1` stores the generation with NO project
reference, and the project's `totalGenerations` stays 0 even though one
generation now exists — the count is never recomputed. -/
theorem c9_project_count_bug :
    ((findGen (createGeneration sProj "a@b" "TES-1" false (JiraOutcome.ok "S" "D")
        atts1 5).2 0).map (fun g => g.project)) = some none ∧
    (((createGeneration sProj "a@b" "TES-1" false (JiraOutcome.ok "S" "D")
        atts1 5).2).projects.map (fun p => (p.projectKey, p.totalGenerations)))
        = [("TES", 0)] ∧
    (((createGeneration sProj "a@b" "TES-1" false (JiraOutcome.ok "S" "D")
        atts1 5).2).gens.length) = 1 := by
  refine ⟨?_, ?_, ?_⟩ <;> decide

/-- C7: once a generation's status is `completed` or `failed`, no operation
— create, revise, publish-toggle, or delete — ever changes that generation's
status field again: if the document still exists after the step, its status is
unchanged. -/
theorem c7_terminal_status (s s' : Store) (id : Nat) (g g' : Generation)
    (hreach : Reachable s) (hstep : OpStep s s')
    (hfind : findGen s id = some g)
    (hterm : g.status = some "completed" ∨ g.status = some "failed")
    (hfind' : findGen s' id = some g') :
    g'.status = g.status := by
  have hinv := reachable_inv hreach
  cases hstep with
  | create actor issueKey autoMode jira attempts now =>
    by_cases hik : issueKey = ""
    · unfold createGeneration at hfind'
      rw [if_pos hik] at hfind'
      rw [hfind] at hfind'
      injection hfind' with h2
      rw [← h2]
    · obtain ⟨f, heq, hfid, _⟩ :=
        createGeneration_shape s actor issueKey autoMode jira attempts now hik
      rw [heq] at hfind'
      rw [findGen_createGeneration_old hinv hfind actor issueKey now hfid] at hfind'
      injection hfind' with h2
      rw [← h2]
  | revise rid actor content now =>
    rcases reviseContent_shape s rid actor content now with
      heq | ⟨gen0, newGen, hf0, hidn, hstn, heq⟩
    · rw [heq, hfind] at hfind'
      injection hfind' with h2
      rw [← h2]
    · rw [heq] at hfind'
      by_cases hrid : rid = id
      · subst hrid
        rw [hfind] at hf0
        injection hf0 with h0
        subst h0
        unfold findGen at hfind'
        dsimp only at hfind'
        rw [find?_map_update_found hfind (hidn.trans (findGen_mem hfind).2)] at hfind'
        injection hfind' with h2
        rw [← h2, hstn]
      · rw [findGen_map_update_ne (hidn.trans (findGen_mem hf0).2) hrid, hfind] at hfind'
        injection hfind' with h2
        rw [← h2]
  | publish rid actor published now =>
    rcases setPublished_shape s rid actor published now with
      heq | ⟨gen0, newGen, hf0, hidn, hstn, heq⟩
    · rw [heq, hfind] at hfind'
      injection hfind' with h2
      rw [← h2]
    · rw [heq] at hfind'
      by_cases hrid : rid = id
      · subst hrid
        rw [hfind] at hf0
        injection hf0 with h0
        subst h0
        unfold findGen at hfind'
        dsimp only at hfind'
        rw [find?_map_update_found hfind (hidn.trans (findGen_mem hfind).2)] at hfind'
        injection hfind' with h2
        rw [← h2, hstn]
      · rw [findGen_map_update_ne (hidn.trans (findGen_mem hf0).2) hrid, hfind] at hfind'
        injection hfind' with h2
        rw [← h2]
  | delete did actor =>
    rcases deleteGeneration_shape s did actor with heq | heq
    · rw [heq, hfind] at hfind'
      injection hfind' with h2
      rw [← h2]
    · rw [heq] at hfind'
      by_cases hdid : id = did
      · subst hdid
        rw [show findGen { s with gens := s.gens.filter (fun g => g.id ≠ id) } id
              = none from find?_filter_self] at hfind'
        cases hfind'
      · rw [show findGen { s with gens := s.gens.filter (fun g => g.id ≠ did) } id
              = findGen s id from find?_filter_of_ne hdid, hfind] at hfind'
        injection hfind' with h2
        rw [← h2]

/-- C7 (witness): publishing a completed generation leaves its status
untouched. -/
theorem c7_terminal_status_witness : gPub.status = g1.status :=
  c7_terminal_status s1 sPub 0 g1 gPub
    (Reachable.create Store.init "a@b" "TES-1" false
      (JiraOutcome.ok "Sum" "Desc") atts1 5 Reachable.init)
    (OpStep.publish s1 0 "a@b" (some true) 9)
    (by decide) (Or.inl (by decide)) (by decide)

/-- C10: every generation document that POST `/testcases` adds to the store
has `mode = "manual"`, for every value of the request's `autoMode` flag — the
flag is threaded to the content generator only and never reaches the stored
record's `mode` field. -/
theorem c10_mode_always_manual (s : Store) (actor issueKey : String)
    (autoMode : Bool) (jira : JiraOutcome) (attempts : List ApiAttempt)
    (now : Nat) (g : Generation) (hreach : Reachable s)
    (hg : g ∈ (createGeneration s actor issueKey autoMode jira attempts now).2.gens)
    (hnew : g ∉ s.gens) :
    g.mode = some "manual" := by
  have hinv := reachable_inv hreach
  by_cases hik : issueKey = ""
  · unfold createGeneration at hg
    rw [if_pos hik] at hg
    exact absurd hg hnew
  · obtain ⟨f, heq, hfid, hfmode, _⟩ :=
      createGeneration_shape s actor issueKey autoMode jira attempts now hik
    rw [heq] at hg
    have hg2 : g ∈ ((s.gens ++ [initialGeneration s.nextGenId issueKey actor none now]).map
        (fun g0 => if g0.id == s.nextGenId then f g0 else g0)) := by
      have h3 : (updateGen (createGenStart s actor issueKey now) s.nextGenId f).gens
          = (createGenStart s actor issueKey now).gens.map
              (fun g0 => if g0.id == s.nextGenId then f g0 else g0) := rfl
      rw [h3, (createGenStart_spec s actor issueKey now).1] at hg
      exact hg
    rcases List.mem_map.mp hg2 with ⟨g0, hg0, rfl⟩
    rcases List.mem_append.mp hg0 with hmem | hinit
    · have hne : g0.id ≠ s.nextGenId := Nat.ne_of_lt (hinv.2.1 g0 hmem)
      rw [if_neg (by simpa using hne)] at hnew
      exact absurd hmem hnew
    · simp only [List.mem_singleton] at hinit
      subst hinit
      rw [if_pos (by simp [initialGeneration])]
      rw [hfmode]
      rfl

/-- C10 (witness): the generation created for `TES-1` is stored with
`mode = "manual"`. -/
theorem c10_mode_always_manual_witness : g1.mode = some "manual" :=
  c10_mode_always_manual Store.init "a@b" "TES-1" false
    (JiraOutcome.ok "Sum" "Desc") atts1 5 g1 Reachable.init
    (by decide) (by decide)

end TestAssistant
